import Mathlib

/-!
# SegmentedBlock: shape-profile bookkeeping

A shallow embedding of the shape/type registration operations of
`core/partitioning/SegmentedBlock.h` (`register_inshapes`,
`register_opt_shapes`, `register_max_shapes`, `construct_dynamic_shape`,
`register_intypes`) and the properties of them that the specification states.

Conventions of the embedding:

* machine integers are `Int`/`Nat`; every conversion the C++ performs between
  integer types is written out (`toU64`, `toI32`), and the typing of a stored
  value (an `int32_t` lies in `[-2^31, 2^31)`) is the predicate `WF`;
* `std::vector` is `List`; an indexed access is `xs[i]?`, and an access outside
  the container is the violation `outOfBounds`;
* a loop `for (i = 0; i < n; i++)` is a monadic left fold over `List.range n`;
* a failed `assert` and a thrown error are `Except.error`.
-/

namespace torch_tensorrt.core.partitioning

/-! ## Machine integers -/

/-- Conversion of a signed integer to `uint64_t` (reduction modulo `2^64`). -/
def toU64 (v : Int) : Nat := (v % 2 ^ 64).toNat

/-- Conversion of an integer to `int32_t` (two's complement wrap-around). -/
def toI32 (v : Int) : Int := (v + 2 ^ 31) % 2 ^ 32 - 2 ^ 31

/-- The value range of `int32_t`. -/
def inI32 (v : Int) : Prop := -(2 ^ 31) ≤ v ∧ v < 2 ^ 31

instance (v : Int) : Decidable (inI32 v) := by
  unfold inI32
  exact inferInstance

/-! ## Failures -/

/-- The ways an operation of the block can fail. -/
inductive Violation where
  /-- The assertion `in_shapes_.size() == shapes.size()` does not hold. -/
  | lengthMismatch
  /-- An indexed access outside a vector or outside the dimension array. -/
  | outOfBounds
  /-- The error branch of `util::toDims`: more dimensions than `MAX_DIMS`. -/
  | dimsExceeded
  deriving DecidableEq

/-! ## Data model -/

/-- Modelled from the spec: the capacity of the dimension array of a dimension
record, the constant `nvinfer1::Dims::MAX_DIMS` of the TensorRT header
`NvInfer.h` (not among the sources), which is 8. -/
def MAX_DIMS : Nat := 8

/-- Modelled from the spec: the dimension record `nvinfer1::Dims` (declared in
`NvInfer.h`, which is not among the sources): a rank `nbDims` (an `int32_t`)
and the array `d` of `MAX_DIMS` extents (each an `int32_t`). All `MAX_DIMS`
slots of `d` exist whatever `nbDims` says. -/
structure Dims where
  nbDims : Int
  d : List Int
  deriving DecidableEq

/-- Modelled from the spec: the per-input shape profile `ir::Input` (declared
in `core/ir/ir.h`, which is not among the sources): the three snapshots
`min`/`opt`/`max`, the working shape `input_shape` and the flag
`input_is_dynamic`. -/
structure Input where
  input_is_dynamic : Bool
  input_shape : Dims
  min : Dims
  max : Dims
  opt : Dims
  deriving DecidableEq

/-- The backend tag `SegmentedBlock::SegmentedBlockTarget`. -/
inductive SegmentedBlockTarget where
  | kTorch
  | kTensorRT
  deriving DecidableEq

/-- The private fields of `SegmentedBlock`. Pointers (`Value*`, `Node*`, the
shared graph pointer) are handles, `at::ScalarType` is its enumeration code,
and the remapping table is an association list. -/
structure SegmentedBlock where
  id_ : Nat
  target_ : SegmentedBlockTarget
  in_shapes_ : List Input
  in_types_ : List Nat
  inputs_ : List Nat
  outputs_ : List Nat
  nodes_ : List Nat
  g_ : Nat
  old_to_new_ : List (Nat × Nat)
  deriving DecidableEq

/-! ## Typing of stored values -/

/-- A dimension record is a value of its C++ type: the array has `MAX_DIMS`
slots and the rank and every slot are `int32_t` values. -/
def Dims.WF (x : Dims) : Prop :=
  x.d.length = MAX_DIMS ∧ inI32 x.nbDims ∧ ∀ v ∈ x.d, inI32 v

instance (x : Dims) : Decidable x.WF := by
  unfold Dims.WF
  exact inferInstance

/-- Every dimension record of a shape profile is a value of its C++ type. -/
def Input.WF (x : Input) : Prop :=
  x.input_shape.WF ∧ x.min.WF ∧ x.opt.WF ∧ x.max.WF

instance (x : Input) : Decidable x.WF := by
  unfold Input.WF
  exact inferInstance

/-- Every shape profile of the block is a value of its C++ type. -/
def SegmentedBlock.WF (b : SegmentedBlock) : Prop :=
  ∀ x ∈ b.in_shapes_, x.WF

instance (b : SegmentedBlock) : Decidable b.WF := by
  unfold SegmentedBlock.WF
  exact inferInstance

/-- The rank of every working shape is at most the capacity of the dimension
array. -/
def SegmentedBlock.RanksWithinCapacity (b : SegmentedBlock) : Prop :=
  ∀ x ∈ b.in_shapes_, x.input_shape.nbDims ≤ MAX_DIMS

instance (b : SegmentedBlock) : Decidable b.RanksWithinCapacity := by
  unfold SegmentedBlock.RanksWithinCapacity
  exact inferInstance

/-! ## `std::set<uint64_t>` -/

/-- Insertion into a `std::set<uint64_t>`, kept as a strictly increasing
list; an element already present is not inserted again. -/
def setInsert : List Nat → Nat → List Nat
  | [], x => [x]
  | y :: ys, x =>
    if x < y then x :: y :: ys
    else if x = y then y :: ys
    else y :: setInsert ys x

/-! ## Registration -/

/-- The operation `register_inshapes`: `in_shapes_ = in_shapes`, whatever the
length of the list. -/
def register_inshapes (b : SegmentedBlock) (in_shapes : List Input) : SegmentedBlock :=
  { b with in_shapes_ := in_shapes }

/-- The operation `register_intypes`: `in_types_ = in_types`, whatever the
length of the list. -/
def register_intypes (b : SegmentedBlock) (in_types : List Nat) : SegmentedBlock :=
  { b with in_types_ := in_types }

/-- One iteration of the loop of `register_opt_shapes`:
`in_shapes_[i].opt = opt_shapes[i].opt`. -/
def optStep (opt_shapes : List Input) (acc : List Input) (i : Nat) :
    Except Violation (List Input) :=
  match acc[i]?, opt_shapes[i]? with
  | some x, some y => .ok (acc.set i { x with opt := y.opt })
  | _, _ => .error .outOfBounds

/-- The operation `register_opt_shapes`: the assertion
`in_shapes_.size() == opt_shapes.size()` (checked, as in a build without
`NDEBUG`), then the loop over `i < opt_shapes.size()`. -/
def register_opt_shapes (b : SegmentedBlock) (opt_shapes : List Input) :
    Except Violation SegmentedBlock :=
  if b.in_shapes_.length ≠ opt_shapes.length then .error .lengthMismatch
  else do
    let shapes ← (List.range opt_shapes.length).foldlM (optStep opt_shapes) b.in_shapes_
    pure { b with in_shapes_ := shapes }

/-- One iteration of the loop of `register_max_shapes`:
`in_shapes_[i].max = max_shapes[i].max`. -/
def maxStep (max_shapes : List Input) (acc : List Input) (i : Nat) :
    Except Violation (List Input) :=
  match acc[i]?, max_shapes[i]? with
  | some x, some y => .ok (acc.set i { x with max := y.max })
  | _, _ => .error .outOfBounds

/-- The operation `register_max_shapes`: the assertion
`in_shapes_.size() == max_shapes.size()` (checked, as in a build without
`NDEBUG`), then the loop over `i < max_shapes.size()`. -/
def register_max_shapes (b : SegmentedBlock) (max_shapes : List Input) :
    Except Violation SegmentedBlock :=
  if b.in_shapes_.length ≠ max_shapes.length then .error .lengthMismatch
  else do
    let shapes ← (List.range max_shapes.length).foldlM (maxStep max_shapes) b.in_shapes_
    pure { b with in_shapes_ := shapes }

/-! ## Shape resolution -/

/-- Modelled from the spec: the conversion `util::toDims` of a list of extents
to a dimension record (defined in `core/util/trt_util.cpp`, which is not among
the sources). It fails when the list is longer than the capacity of the
dimension array; otherwise the rank is the length of the list and slot `k`
holds the `k`-th extent, converted to `int32_t`. The slots from the rank on are
not assigned by the conversion: slot `k` of them holds `fill k`, an arbitrary
`int32_t`. -/
def toDims (fill : Nat → Int) (l : List Int) : Except Violation Dims :=
  if l.length > MAX_DIMS then .error .dimsExceeded
  else .ok { nbDims := toI32 l.length
             d := (List.range MAX_DIMS).map fun k => toI32 (l.getD k (fill k)) }

/-- The body of the inner loop of `construct_dynamic_shape` for dimension
index `j` of the profile `x`; the loop state is `dyn_shape` and the dynamic
flag of the input. The three extents are converted to `uint64_t` and inserted
into a set, whose size decides the branch. -/
def dimStep (x : Input) (st : List Int × Bool) (j : Nat) :
    Except Violation (List Int × Bool) :=
  match x.min.d[j]?, x.opt.d[j]?, x.max.d[j]? with
  | some a, some o, some c =>
    let dim := setInsert (setInsert (setInsert [] (toU64 a)) (toU64 o)) (toU64 c)
    if dim.length ≠ 1 then .ok (st.1 ++ [-1], true)
    else .ok (st.1 ++ [o], st.2)
  | _, _, _ => .error .outOfBounds

/-- The body of the outer loop of `construct_dynamic_shape` for one profile:
the inner loop over `j < input_shape.nbDims`, then
`input_shape = util::toDims(dyn_shape)`. -/
def resolveInput (fill : Nat → Int) (x : Input) : Except Violation Input := do
  let st ← (List.range x.input_shape.nbDims.toNat).foldlM (dimStep x) ([], x.input_is_dynamic)
  let dims ← toDims fill st.1
  pure { x with input_is_dynamic := st.2, input_shape := dims }

/-- One iteration of the outer loop of `construct_dynamic_shape`, on
`in_shapes_[i]`. -/
def shapeStep (fill : Nat → Nat → Int) (acc : List Input) (i : Nat) :
    Except Violation (List Input) :=
  match acc[i]? with
  | some x => do
    let y ← resolveInput (fill i) x
    pure (acc.set i y)
  | none => .error .outOfBounds

/-- The operation `construct_dynamic_shape`: the loop over
`i < in_shapes_.size()`. The
argument `fill i k` is the content of slot `k` left unassigned by `toDims` in
iteration `i`. -/
def construct_dynamic_shape (fill : Nat → Nat → Int) (b : SegmentedBlock) :
    Except Violation SegmentedBlock := do
  let shapes ← (List.range b.in_shapes_.length).foldlM (shapeStep fill) b.in_shapes_
  pure { b with in_shapes_ := shapes }

/-! ## Shape resolution by a three-way equality check

The resolution as the specification's design notes word it: the same loops,
with the set replaced by the check `min[j] == opt[j] && opt[j] == max[j]`. -/

/-- The body of the inner loop, with the three-way equality check. -/
def dimStepThreeWay (x : Input) (st : List Int × Bool) (j : Nat) :
    Except Violation (List Int × Bool) :=
  match x.min.d[j]?, x.opt.d[j]?, x.max.d[j]? with
  | some a, some o, some c =>
    if a = o ∧ o = c then .ok (st.1 ++ [o], st.2)
    else .ok (st.1 ++ [-1], true)
  | _, _, _ => .error .outOfBounds

/-- The body of the outer loop, with the three-way equality check. -/
def resolveInputThreeWay (fill : Nat → Int) (x : Input) : Except Violation Input := do
  let st ← (List.range x.input_shape.nbDims.toNat).foldlM (dimStepThreeWay x)
    ([], x.input_is_dynamic)
  let dims ← toDims fill st.1
  pure { x with input_is_dynamic := st.2, input_shape := dims }

/-- One iteration of the outer loop, with the three-way equality check. -/
def shapeStepThreeWay (fill : Nat → Nat → Int) (acc : List Input) (i : Nat) :
    Except Violation (List Input) :=
  match acc[i]? with
  | some x => do
    let y ← resolveInputThreeWay (fill i) x
    pure (acc.set i y)
  | none => .error .outOfBounds

/-- Shape resolution with the three-way equality check. -/
def construct_dynamic_shape_threeway (fill : Nat → Nat → Int) (b : SegmentedBlock) :
    Except Violation SegmentedBlock := do
  let shapes ← (List.range b.in_shapes_.length).foldlM (shapeStepThreeWay fill) b.in_shapes_
  pure { b with in_shapes_ := shapes }

/-! ## Closed forms of the loops -/

/-- The extents of the three snapshots agree at dimension index `j`. -/
def dimsAgree (x : Input) (j : Nat) : Bool :=
  decide (x.min.d[j]? = x.opt.d[j]? ∧ x.opt.d[j]? = x.max.d[j]?)

/-- The resolved extent at dimension index `j`: the optimal extent when the
three snapshots agree there, `-1` otherwise. -/
def resolvedDim (x : Input) (j : Nat) : Int :=
  if dimsAgree x j then x.opt.d.getD j 0 else -1

/-- The resolved extents at the first `n` dimension indices. -/
def resolvedDims (x : Input) (n : Nat) : List Int :=
  (List.range n).map (resolvedDim x)

/-- Some dimension index below `n` has snapshots that do not agree. -/
def anyDynamic (x : Input) (n : Nat) : Bool :=
  (List.range n).any fun j => !dimsAgree x j

/-- The profile after resolution. -/
def resolvedInput (fill : Nat → Int) (x : Input) : Input :=
  { x with
    input_is_dynamic := x.input_is_dynamic || anyDynamic x x.input_shape.nbDims.toNat
    input_shape :=
      { nbDims := x.input_shape.nbDims.toNat
        d := (List.range MAX_DIMS).map fun k =>
          toI32 ((resolvedDims x x.input_shape.nbDims.toNat).getD k (fill k)) } }

/-! ## Agreement of two profiles below the rank -/

/-- Two profiles have working shapes of the same rank `r`, the same flag, and
the same extents of `min`, `opt` and `max` at every dimension index below `r`.
Nothing is said of the declared ranks of `min`, `opt`, `max`, of their extents
from index `r` on, or of the extents of the working shapes. -/
def Input.AgreeBelowRank (x₁ x₂ : Input) : Prop :=
  x₁.input_shape.nbDims = x₂.input_shape.nbDims ∧
  x₁.input_is_dynamic = x₂.input_is_dynamic ∧
  ∀ j < x₁.input_shape.nbDims.toNat,
    x₁.min.d[j]? = x₂.min.d[j]? ∧ x₁.opt.d[j]? = x₂.opt.d[j]? ∧ x₁.max.d[j]? = x₂.max.d[j]?

instance (x₁ x₂ : Input) : Decidable (x₁.AgreeBelowRank x₂) := by
  unfold Input.AgreeBelowRank
  exact inferInstance

/-! ## Examples of states -/

/-- A dimension record of rank `r` whose first slots are `l`, the rest `0`. -/
def mkDims (r : Int) (l : List Int) : Dims :=
  { nbDims := r, d := (List.range MAX_DIMS).map fun k => l.getD k 0 }

/-- A block with the given profiles and nothing else. -/
def mkBlock (shapes : List Input) : SegmentedBlock :=
  { id_ := 0, target_ := .kTensorRT, in_shapes_ := shapes, in_types_ := [],
    inputs_ := [], outputs_ := [], nodes_ := [], g_ := 0, old_to_new_ := [] }

/-- The profile of the specification: batch size between 1 and 4. -/
def exDynamic : Input :=
  { input_is_dynamic := false
    input_shape := mkDims 4 [1, 3, 224, 224]
    min := mkDims 4 [1, 3, 224, 224]
    opt := mkDims 4 [1, 3, 224, 224]
    max := mkDims 4 [4, 3, 224, 224] }

/-- The profile of the specification with all three snapshots equal. -/
def exStatic : Input :=
  { input_is_dynamic := false
    input_shape := mkDims 4 [1, 3, 224, 224]
    min := mkDims 4 [1, 3, 224, 224]
    opt := mkDims 4 [1, 3, 224, 224]
    max := mkDims 4 [1, 3, 224, 224] }

/-- The first profile of the specification after resolution. -/
def exDynamicResolved : Input :=
  { exDynamic with
    input_is_dynamic := true
    input_shape := mkDims 4 [-1, 3, 224, 224] }

/-- A profile whose three snapshots are equal and whose flag is already set. -/
def exFlagged : Input :=
  { exStatic with input_is_dynamic := true }

/-- A block that recorded one input and has no profile and no type yet. -/
def exOneInput : SegmentedBlock :=
  { mkBlock [] with inputs_ := [7] }

/-- A profile with other snapshots, flagged dynamic. -/
def exOther : Input :=
  { input_is_dynamic := true
    input_shape := mkDims 4 [9, 9, 9, 9]
    min := mkDims 4 [2, 3, 224, 224]
    opt := mkDims 4 [2, 3, 224, 224]
    max := mkDims 4 [8, 3, 224, 224] }

/-- A profile with negative extents: `-1` in all three snapshots at index 0,
and `-1`, `-2`, `-1` at index 1. -/
def exNegative : Input :=
  { input_is_dynamic := false
    input_shape := mkDims 3 [0, 0, 0]
    min := mkDims 3 [-1, -1, 5]
    opt := mkDims 3 [-1, -2, 5]
    max := mkDims 3 [-1, -1, 5] }

/-- The profile `exDynamic` with other declared ranks of `min` and `opt`, other
extents from index 4 on, and another working shape of rank 4. -/
def exDynamicVariant : Input :=
  { input_is_dynamic := false
    input_shape := mkDims 4 [7, 7, 7, 7, 7]
    min := mkDims 2 [1, 3, 224, 224, 5, 6]
    opt := mkDims 7 [1, 3, 224, 224, 9]
    max := mkDims 4 [4, 3, 224, 224, 0, 0, 0, 1] }

/-- The unassigned slots hold `0`. -/
def zeroFill : Nat → Nat → Int := fun _ _ => 0

/-! ## Machine integers: lemmas -/

theorem toU64_inj {a b : Int} (ha : inI32 a) (hb : inI32 b) (h : toU64 a = toU64 b) :
    a = b := by
  unfold inI32 at ha hb
  unfold toU64 at h
  omega

theorem toI32_of_inI32 {v : Int} (hv : inI32 v) : toI32 v = v := by
  unfold inI32 at hv
  unfold toI32
  omega

theorem inI32_toI32 (v : Int) : inI32 (toI32 v) := by
  unfold inI32 toI32
  omega

/-! ## `std::set<uint64_t>`: lemmas -/

/-- A set into which three values were inserted has size 1 exactly when the
three values are equal. -/
theorem setInsert3_length (a b c : Nat) :
    (setInsert (setInsert (setInsert [] a) b) c).length = 1 ↔ a = b ∧ b = c := by
  rcases Nat.lt_trichotomy b a with h | h | h
  · have h1 : ¬ (a = b ∧ b = c) := by omega
    simp only [setInsert, h, if_true, h1, iff_false]
    split_ifs <;> simp [setInsert]
  · subst h
    rcases Nat.lt_trichotomy c b with h | h | h
    · simp [setInsert, h]
      omega
    · subst h
      simp [setInsert]
    · have h2 : ¬ c < b := by omega
      have h3 : ¬ c = b := by omega
      simp [setInsert, h2, h3]
      omega
  · have h1 : ¬ (a = b ∧ b = c) := by omega
    have h2 : ¬ b < a := by omega
    have h3 : ¬ b = a := by omega
    simp only [setInsert, h2, h3, if_false, h1, iff_false]
    split_ifs <;> simp [setInsert]

/-! ## The inner loop -/

theorem Dims.WF.slot {x : Dims} (hx : x.WF) {j : Nat} (hj : j < MAX_DIMS) :
    ∃ v, x.d[j]? = some v ∧ inI32 v := by
  obtain ⟨hlen, -, hall⟩ := hx
  have hj2 : j < x.d.length := by omega
  refine ⟨x.d[j], List.getElem?_eq_getElem hj2, hall _ (List.getElem_mem hj2)⟩

/-- One iteration of the inner loop, in closed form. -/
theorem dimStep_eq (x : Input) (hx : x.WF) (j : Nat) (hj : j < MAX_DIMS)
    (st : List Int × Bool) :
    dimStep x st j = .ok (st.1 ++ [resolvedDim x j], st.2 || !dimsAgree x j) := by
  obtain ⟨-, hmin, hopt, hmax⟩ := hx
  obtain ⟨a, ha, ha2⟩ := hmin.slot hj
  obtain ⟨o, ho, ho2⟩ := hopt.slot hj
  obtain ⟨c, hc, hc2⟩ := hmax.slot hj
  have key : (setInsert (setInsert (setInsert [] (toU64 a)) (toU64 o)) (toU64 c)).length = 1
      ↔ a = o ∧ o = c := by
    rw [setInsert3_length]
    constructor
    · rintro ⟨h1, h2⟩
      exact ⟨toU64_inj ha2 ho2 h1, toU64_inj ho2 hc2 h2⟩
    · rintro ⟨h1, h2⟩
      subst h1
      subst h2
      exact ⟨rfl, rfl⟩
  unfold dimStep resolvedDim dimsAgree
  simp only [ha, ho, hc, List.getD_eq_getElem?_getD, Option.getD_some, Option.some.injEq]
  by_cases h : a = o ∧ o = c
  · rw [if_neg (not_not.mpr (key.mpr h))]
    simp [h]
  · rw [if_pos (fun hh => h (key.mp hh))]
    simp [h]

/-- The inner loop over the first `n` dimension indices, in closed form. -/
theorem dimLoop_eq (x : Input) (hx : x.WF) (n : Nat) (hn : n ≤ MAX_DIMS)
    (acc : List Int) (fl : Bool) :
    (List.range n).foldlM (dimStep x) (acc, fl)
      = .ok (acc ++ resolvedDims x n, fl || anyDynamic x n) := by
  induction n with
  | zero => simp [resolvedDims, anyDynamic]; rfl
  | succ n ih =>
    rw [List.range_succ, List.foldlM_append, ih (by omega)]
    simp only [List.foldlM_cons, List.foldlM_nil, bind, Except.bind]
    rw [dimStep_eq x hx n (by omega)]
    simp [resolvedDims, anyDynamic, List.range_succ, Bool.or_assoc]
    rfl

/-! ## The outer loops -/

/-- A loop over `i < n` whose iteration `i` replaces element `i` of a vector by
a function of its old value replaces the first `n` elements by that function
of their original values. -/
theorem forLoop_mapIdx {α ε : Type} (step : List α → Nat → Except ε (List α))
    (g : Nat → α → α) (xs : List α)
    (hstep : ∀ acc i x, acc[i]? = some x → xs[i]? = some x →
      step acc i = .ok (acc.set i (g i x)))
    (n : Nat) (hn : n ≤ xs.length) :
    (List.range n).foldlM step xs
      = .ok (xs.mapIdx fun i x => if i < n then g i x else x) := by
  induction n with
  | zero =>
    simp only [List.range_zero, List.foldlM_nil, Nat.not_lt_zero, if_false]
    congr 1
    apply List.ext_getElem?
    intro i
    simp
  | succ n ih =>
    have hlt : n < xs.length := by omega
    rw [List.range_succ, List.foldlM_append, ih (by omega)]
    simp only [List.foldlM_cons, List.foldlM_nil, bind, Except.bind]
    rw [hstep _ n xs[n] (by simp [List.getElem?_eq_getElem hlt])
      (List.getElem?_eq_getElem hlt)]
    simp only [pure, Except.pure]
    congr 1
    apply List.ext_getElem?
    intro i
    rw [List.getElem?_set]
    simp only [List.getElem?_mapIdx, List.length_mapIdx]
    by_cases hi : n = i
    · subst hi
      simp [hlt, List.getElem?_eq_getElem hlt]
    · by_cases hi2 : i < n
      · have : i < n + 1 := by omega
        simp [hi, hi2, this]
      · have : ¬ i < n + 1 := by omega
        simp [hi, hi2, this]

/-- The whole loop: every element is replaced. -/
theorem forLoop_mapIdx_all {α ε : Type} (step : List α → Nat → Except ε (List α))
    (g : Nat → α → α) (xs : List α)
    (hstep : ∀ acc i x, acc[i]? = some x → xs[i]? = some x →
      step acc i = .ok (acc.set i (g i x))) :
    (List.range xs.length).foldlM step xs = .ok (xs.mapIdx g) := by
  rw [forLoop_mapIdx step g xs hstep xs.length (Nat.le_refl _)]
  congr 1
  apply List.ext_getElem?
  intro i
  simp only [List.getElem?_mapIdx]
  cases h : xs[i]? with
  | none => rfl
  | some x =>
    have : i < xs.length := (List.getElem?_eq_some_iff.mp h).1
    simp [this]

/-- Two loops whose iterations agree on every state that satisfies an invariant
of the first loop have the same result. -/
theorem foldlM_congr_inv {σ ι ε : Type} (P : σ → Prop) (f g : σ → ι → Except ε σ)
    (hfg : ∀ s i, P s → f s i = g s i)
    (hP : ∀ s i s', P s → f s i = .ok s' → P s') (l : List ι) :
    ∀ s, P s → l.foldlM f s = l.foldlM g s := by
  induction l with
  | nil => intro s _; rfl
  | cons a l ih =>
    intro s hs
    simp only [List.foldlM_cons, bind, Except.bind]
    rw [← hfg s a hs]
    cases h : f s a with
    | error e => rfl
    | ok s' => exact ih s' (hP s a s' hs h)

/-! ## The registration loops in closed form -/

/-- The profile `x` with the `opt` snapshot of entry `i` of `shapes`. -/
theorem optLoop_eq (xs shapes : List Input) (h : xs.length = shapes.length) :
    (List.range shapes.length).foldlM (optStep shapes) xs
      = .ok (xs.mapIdx fun i x =>
          match shapes[i]? with
          | some y => { x with opt := y.opt }
          | none => x) := by
  rw [← h]
  apply forLoop_mapIdx_all
  intro acc i x hacc hx
  have hi : i < shapes.length := by
    rw [← h]
    exact (List.getElem?_eq_some_iff.mp hx).1
  unfold optStep
  simp only [hacc, List.getElem?_eq_getElem hi]

theorem maxLoop_eq (xs shapes : List Input) (h : xs.length = shapes.length) :
    (List.range shapes.length).foldlM (maxStep shapes) xs
      = .ok (xs.mapIdx fun i x =>
          match shapes[i]? with
          | some y => { x with max := y.max }
          | none => x) := by
  rw [← h]
  apply forLoop_mapIdx_all
  intro acc i x hacc hx
  have hi : i < shapes.length := by
    rw [← h]
    exact (List.getElem?_eq_some_iff.mp hx).1
  unfold maxStep
  simp only [hacc, List.getElem?_eq_getElem hi]

theorem register_opt_shapes_ok (b : SegmentedBlock) (shapes : List Input)
    (h : b.in_shapes_.length = shapes.length) :
    register_opt_shapes b shapes
      = .ok { b with in_shapes_ := b.in_shapes_.mapIdx fun i x =>
          match shapes[i]? with
          | some y => { x with opt := y.opt }
          | none => x } := by
  unfold register_opt_shapes
  rw [if_neg (not_not.mpr h), optLoop_eq _ _ h]
  rfl

theorem register_max_shapes_ok (b : SegmentedBlock) (shapes : List Input)
    (h : b.in_shapes_.length = shapes.length) :
    register_max_shapes b shapes
      = .ok { b with in_shapes_ := b.in_shapes_.mapIdx fun i x =>
          match shapes[i]? with
          | some y => { x with max := y.max }
          | none => x } := by
  unfold register_max_shapes
  rw [if_neg (not_not.mpr h), maxLoop_eq _ _ h]
  rfl

/-! ## Resolution of one profile -/

theorem resolvedDims_length (x : Input) (n : Nat) : (resolvedDims x n).length = n := by
  simp [resolvedDims]

/-- The body of the outer loop, in closed form. -/
theorem resolveInput_eq (fill : Nat → Int) (x : Input) (hx : x.WF)
    (hr : x.input_shape.nbDims ≤ MAX_DIMS) :
    resolveInput fill x = .ok (resolvedInput fill x) := by
  have hn : x.input_shape.nbDims.toNat ≤ MAX_DIMS := by
    unfold MAX_DIMS at hr ⊢
    omega
  unfold resolveInput
  rw [dimLoop_eq x hx _ hn]
  simp only [bind, Except.bind, List.nil_append, toDims, resolvedDims_length]
  rw [if_neg (by omega)]
  have h32 : toI32 (x.input_shape.nbDims.toNat : Int) = (x.input_shape.nbDims.toNat : Int) := by
    apply toI32_of_inI32
    unfold inI32
    unfold MAX_DIMS at hn
    omega
  simp only [h32]
  rfl

theorem resolvedInput_wf (fill : Nat → Int) (x : Input) (hx : x.WF) :
    (resolvedInput fill x).WF := by
  obtain ⟨⟨-, hrank, -⟩, hmin, hopt, hmax⟩ := hx
  refine ⟨⟨?_, ?_, ?_⟩, hmin, hopt, hmax⟩
  · simp [resolvedInput]
  · unfold inI32 at hrank ⊢
    simp only [resolvedInput]
    omega
  · intro v hv
    simp only [resolvedInput, List.mem_map] at hv
    obtain ⟨k, -, rfl⟩ := hv
    exact inI32_toI32 _

/-- The resolved extent in terms of the three extents read. -/
theorem resolvedDim_of_slots (x : Input) (j : Nat) (a o c : Int)
    (ha : x.min.d[j]? = some a) (ho : x.opt.d[j]? = some o) (hc : x.max.d[j]? = some c) :
    resolvedDim x j = if a = o ∧ o = c then o else -1 := by
  simp [resolvedDim, dimsAgree, ha, ho, hc]

/-- Slot `j` of the resolved working shape, for `j` below the rank. -/
theorem resolvedInput_slot (fill : Nat → Int) (x : Input) (hx : x.WF)
    (hr : x.input_shape.nbDims ≤ MAX_DIMS) (j : Nat) (hj : (j : Int) < x.input_shape.nbDims) :
    ∃ a o c, x.min.d[j]? = some a ∧ x.opt.d[j]? = some o ∧ x.max.d[j]? = some c ∧
      (resolvedInput fill x).input_shape.d[j]? = some (if a = o ∧ o = c then o else -1) := by
  have hj8 : j < MAX_DIMS := by
    unfold MAX_DIMS at hr ⊢
    omega
  have hjn : j < x.input_shape.nbDims.toNat := by omega
  obtain ⟨-, hmin, hopt, hmax⟩ := hx
  obtain ⟨a, ha, -⟩ := hmin.slot hj8
  obtain ⟨o, ho, ho2⟩ := hopt.slot hj8
  obtain ⟨c, hc, -⟩ := hmax.slot hj8
  refine ⟨a, o, c, ha, ho, hc, ?_⟩
  have hval : inI32 (if a = o ∧ o = c then o else -1) := by
    split_ifs
    · exact ho2
    · unfold inI32
      omega
  simp only [resolvedInput, List.getElem?_map, List.getElem?_range hj8, Option.map_some',
    List.getD_eq_getElem?_getD, resolvedDims, List.getElem?_range hjn, Option.getD_some]
  rw [resolvedDim_of_slots x j a o c ha ho hc, toI32_of_inI32 hval]

/-! ## `construct_dynamic_shape` in closed form -/

theorem shapeStep_eq (fill : Nat → Nat → Int) (b : SegmentedBlock) (hwf : b.WF)
    (hcap : b.RanksWithinCapacity) (acc : List Input) (i : Nat) (x : Input)
    (hacc : acc[i]? = some x) (hx : b.in_shapes_[i]? = some x) :
    shapeStep fill acc i = .ok (acc.set i (resolvedInput (fill i) x)) := by
  have hmem : x ∈ b.in_shapes_ := List.getElem?_mem hx
  unfold shapeStep
  simp only [hacc, bind, Except.bind]
  rw [resolveInput_eq (fill i) x (hwf x hmem) (hcap x hmem)]
  rfl

/-- On a state whose ranks are within the capacity, `construct_dynamic_shape`
returns the state with every profile resolved. -/
theorem construct_dynamic_shape_ok (fill : Nat → Nat → Int) (b : SegmentedBlock)
    (hwf : b.WF) (hcap : b.RanksWithinCapacity) :
    construct_dynamic_shape fill b
      = .ok { b with in_shapes_ := b.in_shapes_.mapIdx fun i x => resolvedInput (fill i) x } := by
  unfold construct_dynamic_shape
  rw [forLoop_mapIdx_all (shapeStep fill) (fun i x => resolvedInput (fill i) x) b.in_shapes_
    (fun acc i x hacc hx => shapeStep_eq fill b hwf hcap acc i x hacc hx)]
  rfl

theorem anyDynamic_eq_true (x : Input) (n : Nat) :
    anyDynamic x n = true ↔ ∃ j, j < n ∧ dimsAgree x j = false := by
  simp [anyDynamic, List.mem_range]

theorem lt_toNat_iff (j : Nat) (r : Int) : j < r.toNat ↔ (j : Int) < r := by
  omega

/-- The profile at index `i` after `construct_dynamic_shape`. -/
theorem mapIdx_resolved_getElem? (fill : Nat → Nat → Int) (xs : List Input) (i : Nat)
    (x : Input) (hx : xs[i]? = some x) :
    (xs.mapIdx fun i x => resolvedInput (fill i) x)[i]? = some (resolvedInput (fill i) x) := by
  simp [List.getElem?_mapIdx, hx]

/-- The flag of a resolved profile: set before, or some dimension index below
the rank has extents that do not agree. -/
theorem resolvedInput_flag (fill : Nat → Int) (x : Input) :
    (resolvedInput fill x).input_is_dynamic = true ↔
      x.input_is_dynamic = true ∨
      ∃ j : Nat, (j : Int) < x.input_shape.nbDims ∧
        ¬ (x.min.d[j]? = x.opt.d[j]? ∧ x.opt.d[j]? = x.max.d[j]?) := by
  simp only [resolvedInput, Bool.or_eq_true, anyDynamic_eq_true, dimsAgree,
    decide_eq_false_iff_not, lt_toNat_iff]

/-! ## Properties of `construct_dynamic_shape` -/

/-- C1: on a state whose working-shape ranks are within the capacity of the
dimension array, `construct_dynamic_shape` returns a state in which every
input whose working shape had rank `r ≥ 0` has a working shape of rank `r`
whose entry `j < r` is the common extent of `min[j]`, `opt[j]`, `max[j]` when
the three are equal and `-1` otherwise. -/
theorem construct_dynamic_shape_resolves (fill : Nat → Nat → Int) (b : SegmentedBlock)
    (hwf : b.WF) (hcap : b.RanksWithinCapacity) :
    ∃ b', construct_dynamic_shape fill b = .ok b' ∧
      ∀ (i : Nat) (x : Input), b.in_shapes_[i]? = some x → 0 ≤ x.input_shape.nbDims →
        ∃ y : Input, b'.in_shapes_[i]? = some y ∧
          y.input_shape.nbDims = x.input_shape.nbDims ∧
          ∀ j : Nat, (j : Int) < x.input_shape.nbDims →
            ∃ a o c, x.min.d[j]? = some a ∧ x.opt.d[j]? = some o ∧ x.max.d[j]? = some c ∧
              y.input_shape.d[j]? = some (if a = o ∧ o = c then o else -1) := by
  refine ⟨_, construct_dynamic_shape_ok fill b hwf hcap, ?_⟩
  intro i x hx hr
  have hmem : x ∈ b.in_shapes_ := List.getElem?_mem hx
  refine ⟨resolvedInput (fill i) x, mapIdx_resolved_getElem? fill _ i x hx, ?_, ?_⟩
  · simp only [resolvedInput]
    omega
  · intro j hj
    exact resolvedInput_slot (fill i) x (hwf x hmem) (hcap x hmem) j hj

/-- C1, on the two profiles of the specification: `[1,3,224,224]`,
`[1,3,224,224]`, `[4,3,224,224]` resolves to `[-1,3,224,224]`, and three equal
snapshots `[1,3,224,224]` resolve to `[1,3,224,224]`. -/
theorem construct_dynamic_shape_resolves_witness :
    (mkBlock [exDynamic, exStatic]).WF ∧ (mkBlock [exDynamic, exStatic]).RanksWithinCapacity ∧
    construct_dynamic_shape zeroFill (mkBlock [exDynamic, exStatic])
      = .ok (mkBlock [exDynamicResolved, exStatic]) ∧
    ∃ b', construct_dynamic_shape zeroFill (mkBlock [exDynamic, exStatic]) = .ok b' ∧
      ∀ (i : Nat) (x : Input), (mkBlock [exDynamic, exStatic]).in_shapes_[i]? = some x →
        0 ≤ x.input_shape.nbDims →
        ∃ y : Input, b'.in_shapes_[i]? = some y ∧
          y.input_shape.nbDims = x.input_shape.nbDims ∧
          ∀ j : Nat, (j : Int) < x.input_shape.nbDims →
            ∃ a o c, x.min.d[j]? = some a ∧ x.opt.d[j]? = some o ∧ x.max.d[j]? = some c ∧
              y.input_shape.d[j]? = some (if a = o ∧ o = c then o else -1) :=
  ⟨by decide, by decide, by rfl,
    construct_dynamic_shape_resolves zeroFill (mkBlock [exDynamic, exStatic])
      (by decide) (by decide)⟩

/-- C6: on a state whose working-shape ranks are within the capacity of the
dimension array, `construct_dynamic_shape` returns a state, whatever the
snapshots hold: no read of `min`/`opt`/`max` is out of bounds and `toDims`
does not take its error branch. -/
theorem construct_dynamic_shape_total (fill : Nat → Nat → Int) (b : SegmentedBlock)
    (hwf : b.WF) (hcap : b.RanksWithinCapacity) :
    ∃ b', construct_dynamic_shape fill b = .ok b' :=
  ⟨_, construct_dynamic_shape_ok fill b hwf hcap⟩

/-- C6, on a state that `register_inshapes` produced and on which neither
`register_opt_shapes` nor `register_max_shapes` was called. -/
theorem construct_dynamic_shape_total_witness :
    (register_inshapes (mkBlock []) [exStatic, exDynamic]).WF ∧
    (register_inshapes (mkBlock []) [exStatic, exDynamic]).RanksWithinCapacity ∧
    ∃ b', construct_dynamic_shape zeroFill
      (register_inshapes (mkBlock []) [exStatic, exDynamic]) = .ok b' :=
  ⟨by decide, by decide,
    construct_dynamic_shape_total zeroFill
      (register_inshapes (mkBlock []) [exStatic, exDynamic]) (by decide) (by decide)⟩

/-- Outside the hypothesis of C6: with a working shape of rank 9 the inner loop
reads slot 8 of the dimension arrays, which does not exist. -/
theorem construct_dynamic_shape_rank_exceeds :
    construct_dynamic_shape zeroFill (mkBlock [{ exStatic with input_shape := mkDims 9 [] }])
      = .error .outOfBounds := by
  rfl

/-- C2, as stated, fails: a profile that is flagged dynamic before the call and
whose three snapshots agree at every dimension index below the rank is still
flagged dynamic after the call. -/
theorem construct_dynamic_shape_keeps_flag_counterexample :
    ∃ (b' : SegmentedBlock) (y : Input),
      construct_dynamic_shape zeroFill (mkBlock [exFlagged]) = .ok b' ∧
      b'.in_shapes_[0]? = some y ∧
      (∀ j : Nat, (j : Int) < exFlagged.input_shape.nbDims →
        exFlagged.min.d[j]? = exFlagged.opt.d[j]? ∧
        exFlagged.opt.d[j]? = exFlagged.max.d[j]?) ∧
      y.input_is_dynamic ≠ false := by
  refine ⟨mkBlock [exFlagged], exFlagged, by rfl, by rfl, ?_, by decide⟩
  intro j hj
  have hj4 : j < 4 := by
    have : exFlagged.input_shape.nbDims = 4 := by rfl
    omega
  interval_cases j <;> decide

/-- C2, amended: after `construct_dynamic_shape` the flag of an input is true
if some dimension index below its rank has `min`, `opt`, `max` not all equal;
if they agree at every dimension index below the rank, the flag keeps the
value it had before the call (so it is false if it was false before). -/
theorem construct_dynamic_shape_sets_flag (fill : Nat → Nat → Int) (b : SegmentedBlock)
    (hwf : b.WF) (hcap : b.RanksWithinCapacity) :
    ∃ b', construct_dynamic_shape fill b = .ok b' ∧
      ∀ (i : Nat) (x : Input), b.in_shapes_[i]? = some x →
        ∃ y : Input, b'.in_shapes_[i]? = some y ∧
          ((∃ j : Nat, (j : Int) < x.input_shape.nbDims ∧
              ¬ (x.min.d[j]? = x.opt.d[j]? ∧ x.opt.d[j]? = x.max.d[j]?)) →
            y.input_is_dynamic = true) ∧
          ((∀ j : Nat, (j : Int) < x.input_shape.nbDims →
              x.min.d[j]? = x.opt.d[j]? ∧ x.opt.d[j]? = x.max.d[j]?) →
            y.input_is_dynamic = x.input_is_dynamic) := by
  refine ⟨_, construct_dynamic_shape_ok fill b hwf hcap, ?_⟩
  intro i x hx
  refine ⟨resolvedInput (fill i) x, mapIdx_resolved_getElem? fill _ i x hx, ?_, ?_⟩
  · intro h
    exact (resolvedInput_flag (fill i) x).mpr (Or.inr h)
  · intro h
    have key := resolvedInput_flag (fill i) x
    cases hf : x.input_is_dynamic with
    | true => exact key.mpr (Or.inl hf)
    | false =>
      cases hy : (resolvedInput (fill i) x).input_is_dynamic with
      | false => rfl
      | true =>
        rcases key.mp hy with h1 | ⟨j, hj, hne⟩
        · rw [hf] at h1
          cases h1
        · exact absurd (h j hj) hne

/-- C2, amended, on the two profiles of the specification. -/
theorem construct_dynamic_shape_sets_flag_witness :
    (mkBlock [exDynamic, exStatic]).WF ∧ (mkBlock [exDynamic, exStatic]).RanksWithinCapacity ∧
    ∃ b', construct_dynamic_shape zeroFill (mkBlock [exDynamic, exStatic]) = .ok b' ∧
      ∀ (i : Nat) (x : Input), (mkBlock [exDynamic, exStatic]).in_shapes_[i]? = some x →
        ∃ y : Input, b'.in_shapes_[i]? = some y ∧
          ((∃ j : Nat, (j : Int) < x.input_shape.nbDims ∧
              ¬ (x.min.d[j]? = x.opt.d[j]? ∧ x.opt.d[j]? = x.max.d[j]?)) →
            y.input_is_dynamic = true) ∧
          ((∀ j : Nat, (j : Int) < x.input_shape.nbDims →
              x.min.d[j]? = x.opt.d[j]? ∧ x.opt.d[j]? = x.max.d[j]?) →
            y.input_is_dynamic = x.input_is_dynamic) :=
  ⟨by decide, by decide,
    construct_dynamic_shape_sets_flag zeroFill (mkBlock [exDynamic, exStatic])
      (by decide) (by decide)⟩

/-- C9: `construct_dynamic_shape` sets the dynamic flag and never clears it:
the flag of an input after the call is true exactly when it was true before
the call or some dimension index below the rank has `min`, `opt`, `max` not
all equal; an input flagged dynamic before the call is flagged dynamic after
it. -/
theorem construct_dynamic_shape_never_clears_flag (fill : Nat → Nat → Int) (b : SegmentedBlock)
    (hwf : b.WF) (hcap : b.RanksWithinCapacity) :
    ∃ b', construct_dynamic_shape fill b = .ok b' ∧
      ∀ (i : Nat) (x : Input), b.in_shapes_[i]? = some x →
        ∃ y : Input, b'.in_shapes_[i]? = some y ∧
          (y.input_is_dynamic = true ↔
            x.input_is_dynamic = true ∨
            ∃ j : Nat, (j : Int) < x.input_shape.nbDims ∧
              ¬ (x.min.d[j]? = x.opt.d[j]? ∧ x.opt.d[j]? = x.max.d[j]?)) ∧
          (x.input_is_dynamic = true → y.input_is_dynamic = true) := by
  refine ⟨_, construct_dynamic_shape_ok fill b hwf hcap, ?_⟩
  intro i x hx
  refine ⟨resolvedInput (fill i) x, mapIdx_resolved_getElem? fill _ i x hx,
    resolvedInput_flag (fill i) x, ?_⟩
  intro h
  exact (resolvedInput_flag (fill i) x).mpr (Or.inl h)

/-- C9, on a block with a profile flagged before the call and two that are
not. -/
theorem construct_dynamic_shape_never_clears_flag_witness :
    (mkBlock [exFlagged, exDynamic, exStatic]).WF ∧
    (mkBlock [exFlagged, exDynamic, exStatic]).RanksWithinCapacity ∧
    ∃ b', construct_dynamic_shape zeroFill (mkBlock [exFlagged, exDynamic, exStatic]) = .ok b' ∧
      ∀ (i : Nat) (x : Input),
        (mkBlock [exFlagged, exDynamic, exStatic]).in_shapes_[i]? = some x →
        ∃ y : Input, b'.in_shapes_[i]? = some y ∧
          (y.input_is_dynamic = true ↔
            x.input_is_dynamic = true ∨
            ∃ j : Nat, (j : Int) < x.input_shape.nbDims ∧
              ¬ (x.min.d[j]? = x.opt.d[j]? ∧ x.opt.d[j]? = x.max.d[j]?)) ∧
          (x.input_is_dynamic = true → y.input_is_dynamic = true) :=
  ⟨by decide, by decide,
    construct_dynamic_shape_never_clears_flag zeroFill (mkBlock [exFlagged, exDynamic, exStatic])
      (by decide) (by decide)⟩

/-! ## Properties of the registration operations -/

/-- C3: `register_opt_shapes` fails with the length-mismatch violation exactly
when the length of the supplied list differs from the length of `in_shapes_`,
and it fails in no other way; the same holds for `register_max_shapes`. -/
theorem register_shapes_length_mismatch (b : SegmentedBlock) (shapes : List Input) :
    (register_opt_shapes b shapes = .error .lengthMismatch ↔
      shapes.length ≠ b.in_shapes_.length) ∧
    (∀ e, register_opt_shapes b shapes = .error e → e = .lengthMismatch) ∧
    (register_max_shapes b shapes = .error .lengthMismatch ↔
      shapes.length ≠ b.in_shapes_.length) ∧
    (∀ e, register_max_shapes b shapes = .error e → e = .lengthMismatch) := by
  by_cases h : b.in_shapes_.length = shapes.length
  · rw [register_opt_shapes_ok b shapes h, register_max_shapes_ok b shapes h]
    refine ⟨⟨fun hh => ?_, fun hh => absurd h.symm hh⟩, fun e hh => ?_,
      ⟨fun hh => ?_, fun hh => absurd h.symm hh⟩, fun e hh => ?_⟩ <;> cases hh
  · have hopt : register_opt_shapes b shapes = .error .lengthMismatch := by
      unfold register_opt_shapes
      rw [if_pos h]
    have hmax : register_max_shapes b shapes = .error .lengthMismatch := by
      unfold register_max_shapes
      rw [if_pos h]
    rw [hopt, hmax]
    refine ⟨⟨fun _ hh => h hh.symm, fun _ => rfl⟩, fun e hh => ?_,
      ⟨fun _ hh => h hh.symm, fun _ => rfl⟩, fun e hh => ?_⟩ <;>
    · cases hh
      rfl

/-- C3, on a block with two profiles: a list of one entry is refused, a list
of two entries is not. -/
theorem register_shapes_length_mismatch_witness :
    register_opt_shapes (mkBlock [exStatic, exDynamic]) [exOther] = .error .lengthMismatch ∧
    register_max_shapes (mkBlock [exStatic, exDynamic]) [exOther] = .error .lengthMismatch ∧
    register_opt_shapes (mkBlock [exStatic, exDynamic]) [exOther, exOther]
      ≠ .error .lengthMismatch ∧
    ((register_opt_shapes (mkBlock [exStatic, exDynamic]) [exOther] = .error .lengthMismatch ↔
      [exOther].length ≠ (mkBlock [exStatic, exDynamic]).in_shapes_.length) ∧
    (∀ e, register_opt_shapes (mkBlock [exStatic, exDynamic]) [exOther] = .error e →
      e = .lengthMismatch) ∧
    (register_max_shapes (mkBlock [exStatic, exDynamic]) [exOther] = .error .lengthMismatch ↔
      [exOther].length ≠ (mkBlock [exStatic, exDynamic]).in_shapes_.length) ∧
    (∀ e, register_max_shapes (mkBlock [exStatic, exDynamic]) [exOther] = .error e →
      e = .lengthMismatch)) :=
  ⟨by rfl, by rfl, (fun h => by cases h),
    register_shapes_length_mismatch (mkBlock [exStatic, exDynamic]) [exOther]⟩

/-- C4: when the supplied list has the length of `in_shapes_`,
`register_opt_shapes` returns a state with the same number of profiles in
which profile `i` has the `opt` snapshot of entry `i` of the list and its old
`min`, `max`, working shape and flag, and every other field of the block is
unchanged; `register_max_shapes` does the same for the `max` snapshot. -/
theorem register_shapes_frame (b : SegmentedBlock) (shapes : List Input)
    (h : shapes.length = b.in_shapes_.length) :
    (∃ b', register_opt_shapes b shapes = .ok b' ∧
      b'.in_shapes_.length = b.in_shapes_.length ∧
      (∀ (i : Nat) (x s : Input), b.in_shapes_[i]? = some x → shapes[i]? = some s →
        ∃ y : Input, b'.in_shapes_[i]? = some y ∧ y.opt = s.opt ∧ y.min = x.min ∧
          y.max = x.max ∧ y.input_shape = x.input_shape ∧
          y.input_is_dynamic = x.input_is_dynamic) ∧
      b'.id_ = b.id_ ∧ b'.target_ = b.target_ ∧ b'.in_types_ = b.in_types_ ∧
      b'.inputs_ = b.inputs_ ∧ b'.outputs_ = b.outputs_ ∧ b'.nodes_ = b.nodes_ ∧
      b'.g_ = b.g_ ∧ b'.old_to_new_ = b.old_to_new_) ∧
    (∃ b', register_max_shapes b shapes = .ok b' ∧
      b'.in_shapes_.length = b.in_shapes_.length ∧
      (∀ (i : Nat) (x s : Input), b.in_shapes_[i]? = some x → shapes[i]? = some s →
        ∃ y : Input, b'.in_shapes_[i]? = some y ∧ y.max = s.max ∧ y.min = x.min ∧
          y.opt = x.opt ∧ y.input_shape = x.input_shape ∧
          y.input_is_dynamic = x.input_is_dynamic) ∧
      b'.id_ = b.id_ ∧ b'.target_ = b.target_ ∧ b'.in_types_ = b.in_types_ ∧
      b'.inputs_ = b.inputs_ ∧ b'.outputs_ = b.outputs_ ∧ b'.nodes_ = b.nodes_ ∧
      b'.g_ = b.g_ ∧ b'.old_to_new_ = b.old_to_new_) := by
  constructor
  · refine ⟨_, register_opt_shapes_ok b shapes h.symm, by simp, ?_,
      rfl, rfl, rfl, rfl, rfl, rfl, rfl, rfl⟩
    intro i x s hx hs
    exact ⟨{ x with opt := s.opt }, by simp [List.getElem?_mapIdx, hx, hs],
      rfl, rfl, rfl, rfl, rfl⟩
  · refine ⟨_, register_max_shapes_ok b shapes h.symm, by simp, ?_,
      rfl, rfl, rfl, rfl, rfl, rfl, rfl, rfl⟩
    intro i x s hx hs
    exact ⟨{ x with max := s.max }, by simp [List.getElem?_mapIdx, hx, hs],
      rfl, rfl, rfl, rfl, rfl⟩

/-- C4, on a block with two profiles: only the `opt` snapshots, respectively
only the `max` snapshots, are replaced. -/
theorem register_shapes_frame_witness :
    [exOther, exOther].length = (mkBlock [exStatic, exDynamic]).in_shapes_.length ∧
    register_opt_shapes (mkBlock [exStatic, exDynamic]) [exOther, exOther]
      = .ok (mkBlock [{ exStatic with opt := mkDims 4 [2, 3, 224, 224] },
          { exDynamic with opt := mkDims 4 [2, 3, 224, 224] }]) ∧
    register_max_shapes (mkBlock [exStatic, exDynamic]) [exOther, exOther]
      = .ok (mkBlock [{ exStatic with max := mkDims 4 [8, 3, 224, 224] },
          { exDynamic with max := mkDims 4 [8, 3, 224, 224] }]) ∧
    (∃ b', register_opt_shapes (mkBlock [exStatic, exDynamic]) [exOther, exOther] = .ok b' ∧
      b'.in_shapes_.length = (mkBlock [exStatic, exDynamic]).in_shapes_.length ∧
      (∀ (i : Nat) (x s : Input), (mkBlock [exStatic, exDynamic]).in_shapes_[i]? = some x → [exOther, exOther][i]? = some s →
        ∃ y : Input, b'.in_shapes_[i]? = some y ∧ y.opt = s.opt ∧ y.min = x.min ∧
          y.max = x.max ∧ y.input_shape = x.input_shape ∧
          y.input_is_dynamic = x.input_is_dynamic) ∧
      b'.id_ = (mkBlock [exStatic, exDynamic]).id_ ∧ b'.target_ = (mkBlock [exStatic, exDynamic]).target_ ∧ b'.in_types_ = (mkBlock [exStatic, exDynamic]).in_types_ ∧
      b'.inputs_ = (mkBlock [exStatic, exDynamic]).inputs_ ∧ b'.outputs_ = (mkBlock [exStatic, exDynamic]).outputs_ ∧ b'.nodes_ = (mkBlock [exStatic, exDynamic]).nodes_ ∧
      b'.g_ = (mkBlock [exStatic, exDynamic]).g_ ∧ b'.old_to_new_ = (mkBlock [exStatic, exDynamic]).old_to_new_) ∧
    (∃ b', register_max_shapes (mkBlock [exStatic, exDynamic]) [exOther, exOther] = .ok b' ∧
      b'.in_shapes_.length = (mkBlock [exStatic, exDynamic]).in_shapes_.length ∧
      (∀ (i : Nat) (x s : Input), (mkBlock [exStatic, exDynamic]).in_shapes_[i]? = some x → [exOther, exOther][i]? = some s →
        ∃ y : Input, b'.in_shapes_[i]? = some y ∧ y.max = s.max ∧ y.min = x.min ∧
          y.opt = x.opt ∧ y.input_shape = x.input_shape ∧
          y.input_is_dynamic = x.input_is_dynamic) ∧
      b'.id_ = (mkBlock [exStatic, exDynamic]).id_ ∧ b'.target_ = (mkBlock [exStatic, exDynamic]).target_ ∧ b'.in_types_ = (mkBlock [exStatic, exDynamic]).in_types_ ∧
      b'.inputs_ = (mkBlock [exStatic, exDynamic]).inputs_ ∧ b'.outputs_ = (mkBlock [exStatic, exDynamic]).outputs_ ∧ b'.nodes_ = (mkBlock [exStatic, exDynamic]).nodes_ ∧
      b'.g_ = (mkBlock [exStatic, exDynamic]).g_ ∧ b'.old_to_new_ = (mkBlock [exStatic, exDynamic]).old_to_new_) :=
  ⟨by decide, by rfl, by rfl,
    register_shapes_frame (mkBlock [exStatic, exDynamic]) [exOther, exOther] (by decide)⟩

/-- C5, as stated, fails: `register_inshapes` and `register_intypes` store the
lists they are given whatever their lengths, so a block that recorded one
input can hold two profiles and one type. -/
theorem register_inshapes_intypes_counterexample :
    (register_intypes (register_inshapes exOneInput [exStatic, exStatic]) [6]).inputs_.length = 1 ∧
    (register_intypes (register_inshapes exOneInput [exStatic, exStatic]) [6]).in_shapes_.length = 2 ∧
    (register_intypes (register_inshapes exOneInput [exStatic, exStatic]) [6]).in_types_.length = 1 ∧
    ¬ ((register_intypes (register_inshapes exOneInput [exStatic, exStatic]) [6]).inputs_.length
        = (register_intypes (register_inshapes exOneInput [exStatic, exStatic]) [6]).in_shapes_.length ∧
      (register_intypes (register_inshapes exOneInput [exStatic, exStatic]) [6]).in_shapes_.length
        = (register_intypes (register_inshapes exOneInput [exStatic, exStatic]) [6]).in_types_.length) := by
  decide

/-- C5, amended: `register_inshapes` and `register_intypes`, in either order,
set `in_shapes_` and `in_types_` to the lists they are given and leave `inputs_`
unchanged; afterwards `inputs_.size() == in_shapes_.size() == in_types_.size()`
holds exactly when both lists have one entry per recorded input. -/
theorem register_inshapes_intypes_lengths (b : SegmentedBlock) (shapes : List Input)
    (types : List Nat) :
    register_inshapes (register_intypes b types) shapes
      = register_intypes (register_inshapes b shapes) types ∧
    (register_intypes (register_inshapes b shapes) types).in_shapes_ = shapes ∧
    (register_intypes (register_inshapes b shapes) types).in_types_ = types ∧
    (register_intypes (register_inshapes b shapes) types).inputs_ = b.inputs_ ∧
    (((register_intypes (register_inshapes b shapes) types).inputs_.length
        = (register_intypes (register_inshapes b shapes) types).in_shapes_.length ∧
      (register_intypes (register_inshapes b shapes) types).in_shapes_.length
        = (register_intypes (register_inshapes b shapes) types).in_types_.length) ↔
      (shapes.length = b.inputs_.length ∧ types.length = b.inputs_.length)) := by
  refine ⟨rfl, rfl, rfl, rfl, ?_⟩
  simp only [register_intypes, register_inshapes]
  omega

/-- C5, amended, on a block that recorded one input and is given one profile
and one type: the three lists have the same length. -/
theorem register_inshapes_intypes_lengths_witness :
    ((register_intypes (register_inshapes exOneInput [exStatic]) [6]).inputs_.length = (register_intypes (register_inshapes exOneInput [exStatic]) [6]).in_shapes_.length ∧ (register_intypes (register_inshapes exOneInput [exStatic]) [6]).in_shapes_.length = (register_intypes (register_inshapes exOneInput [exStatic]) [6]).in_types_.length) ∧
    (register_inshapes (register_intypes exOneInput [6]) [exStatic] = (register_intypes (register_inshapes exOneInput [exStatic]) [6]) ∧
    (register_intypes (register_inshapes exOneInput [exStatic]) [6]).in_shapes_ = [exStatic] ∧
    (register_intypes (register_inshapes exOneInput [exStatic]) [6]).in_types_ = [6] ∧
    (register_intypes (register_inshapes exOneInput [exStatic]) [6]).inputs_ = exOneInput.inputs_ ∧
    (((register_intypes (register_inshapes exOneInput [exStatic]) [6]).inputs_.length = (register_intypes (register_inshapes exOneInput [exStatic]) [6]).in_shapes_.length ∧
      (register_intypes (register_inshapes exOneInput [exStatic]) [6]).in_shapes_.length = (register_intypes (register_inshapes exOneInput [exStatic]) [6]).in_types_.length) ↔
      ([exStatic].length = exOneInput.inputs_.length ∧
        [6].length = exOneInput.inputs_.length))) :=
  ⟨by decide, register_inshapes_intypes_lengths exOneInput [exStatic] [6]⟩

/-! ## The set and the three-way equality check -/

theorem toDims_wf (fill : Nat → Int) (l : List Int) (dims : Dims)
    (h : toDims fill l = .ok dims) : dims.WF := by
  unfold toDims at h
  split_ifs at h
  have hd := Except.ok.inj h
  rw [← hd]
  refine ⟨by simp only [List.length_map, List.length_range], inI32_toI32 _, ?_⟩
  intro v hv
  simp only [List.mem_map] at hv
  obtain ⟨k, -, rfl⟩ := hv
  exact inI32_toI32 _

theorem resolveInput_wf (fill : Nat → Int) (x y : Input) (hx : x.WF)
    (h : resolveInput fill x = .ok y) : y.WF := by
  unfold resolveInput at h
  simp only [bind, Except.bind] at h
  split at h
  · cases h
  · split at h
    · cases h
    · rename_i dims hd
      cases h
      exact ⟨toDims_wf fill _ dims hd, hx.2.1, hx.2.2.1, hx.2.2.2⟩

/-- One iteration of the inner loop: the set has one element exactly when the
three-way equality check succeeds. -/
theorem dimStep_eq_threeWay (x : Input) (hx : x.WF) (st : List Int × Bool) (j : Nat) :
    dimStep x st j = dimStepThreeWay x st j := by
  obtain ⟨-, hmin, hopt, hmax⟩ := hx
  unfold dimStep dimStepThreeWay
  cases ha : x.min.d[j]? with
  | none => rfl
  | some a =>
    cases ho : x.opt.d[j]? with
    | none => rfl
    | some o =>
      cases hc : x.max.d[j]? with
      | none => rfl
      | some c =>
        have ha2 : inI32 a := hmin.2.2 a (List.getElem?_mem ha)
        have ho2 : inI32 o := hopt.2.2 o (List.getElem?_mem ho)
        have hc2 : inI32 c := hmax.2.2 c (List.getElem?_mem hc)
        have key : (setInsert (setInsert (setInsert [] (toU64 a)) (toU64 o)) (toU64 c)).length = 1
            ↔ a = o ∧ o = c := by
          rw [setInsert3_length]
          constructor
          · rintro ⟨h1, h2⟩
            exact ⟨toU64_inj ha2 ho2 h1, toU64_inj ho2 hc2 h2⟩
          · rintro ⟨h1, h2⟩
            subst h1
            subst h2
            exact ⟨rfl, rfl⟩
        simp only
        by_cases h : a = o ∧ o = c
        · rw [if_neg (not_not.mpr (key.mpr h)), if_pos h]
        · rw [if_pos (fun hh => h (key.mp hh)), if_neg h]

theorem resolveInput_eq_threeWay (fill : Nat → Int) (x : Input) (hx : x.WF) :
    resolveInput fill x = resolveInputThreeWay fill x := by
  have hstep : dimStep x = dimStepThreeWay x := by
    funext st j
    exact dimStep_eq_threeWay x hx st j
  unfold resolveInput resolveInputThreeWay
  rw [hstep]

theorem shapeStep_eq_threeWay (fill : Nat → Nat → Int) (acc : List Input)
    (hacc : ∀ x ∈ acc, x.WF) (i : Nat) :
    shapeStep fill acc i = shapeStepThreeWay fill acc i := by
  unfold shapeStep shapeStepThreeWay
  cases hx : acc[i]? with
  | none => rfl
  | some x =>
    simp only
    rw [resolveInput_eq_threeWay (fill i) x (hacc x (List.getElem?_mem hx))]

theorem shapeStep_wf (fill : Nat → Nat → Int) (acc acc' : List Input)
    (hacc : ∀ x ∈ acc, x.WF) (i : Nat) (h : shapeStep fill acc i = .ok acc') :
    ∀ x ∈ acc', x.WF := by
  unfold shapeStep at h
  cases hx : acc[i]? with
  | none =>
    rw [hx] at h
    cases h
  | some x =>
    rw [hx] at h
    simp only [bind, Except.bind] at h
    split at h
    · cases h
    · rename_i y hy
      cases h
      intro z hz
      rcases List.mem_or_eq_of_mem_set hz with hz | hz
      · exact hacc z hz
      · rw [hz]
        exact resolveInput_wf (fill i) x y (hacc x (List.getElem?_mem hx)) hy

/-- C7: the resolution that inserts `min[j]`, `opt[j]`, `max[j]`, converted to
`uint64_t`, into a set and tests whether its size is 1 has the same result, on
every state (negative extents included), as the resolution that checks
`min[j] == opt[j] && opt[j] == max[j]`: the same working shapes, the same flags,
and the same failure where there is one. -/
theorem construct_dynamic_shape_eq_threeway (fill : Nat → Nat → Int) (b : SegmentedBlock)
    (hwf : b.WF) :
    construct_dynamic_shape fill b = construct_dynamic_shape_threeway fill b := by
  unfold construct_dynamic_shape construct_dynamic_shape_threeway
  rw [foldlM_congr_inv (fun acc : List Input => ∀ x ∈ acc, x.WF) (shapeStep fill)
    (shapeStepThreeWay fill)
    (fun acc i hacc => shapeStep_eq_threeWay fill acc hacc i)
    (fun acc i acc' hacc h => shapeStep_wf fill acc acc' hacc i h)
    (List.range b.in_shapes_.length) b.in_shapes_ hwf]

/-- C7, on a block with negative extents. -/
theorem construct_dynamic_shape_eq_threeway_witness :
    (mkBlock [exNegative, exDynamic]).WF ∧
    construct_dynamic_shape zeroFill (mkBlock [exNegative, exDynamic])
      = .ok (mkBlock [{ exNegative with
          input_is_dynamic := true, input_shape := mkDims 3 [-1, -1, 5] },
        exDynamicResolved]) ∧
    construct_dynamic_shape zeroFill (mkBlock [exNegative, exDynamic])
      = construct_dynamic_shape_threeway zeroFill (mkBlock [exNegative, exDynamic]) :=
  ⟨by decide, by rfl,
    construct_dynamic_shape_eq_threeway zeroFill (mkBlock [exNegative, exDynamic]) (by decide)⟩

/-! ## Idempotence -/

/-- Resolving a resolved profile gives what resolving the profile gives. -/
theorem resolvedInput_idem (f₁ f₂ : Nat → Int) (x : Input) :
    resolvedInput f₂ (resolvedInput f₁ x) = resolvedInput f₂ x := by
  have hr : ((x.input_shape.nbDims.toNat : Int)).toNat = x.input_shape.nbDims.toNat := by
    omega
  show ({ input_is_dynamic :=
            (x.input_is_dynamic || anyDynamic x x.input_shape.nbDims.toNat)
              || anyDynamic x ((x.input_shape.nbDims.toNat : Int)).toNat
          input_shape :=
            { nbDims := (((x.input_shape.nbDims.toNat : Int)).toNat : Int)
              d := (List.range MAX_DIMS).map fun k =>
                toI32 ((resolvedDims x ((x.input_shape.nbDims.toNat : Int)).toNat).getD k
                  (f₂ k)) }
          min := x.min, max := x.max, opt := x.opt } : Input)
      = { input_is_dynamic := x.input_is_dynamic || anyDynamic x x.input_shape.nbDims.toNat
          input_shape :=
            { nbDims := (x.input_shape.nbDims.toNat : Int)
              d := (List.range MAX_DIMS).map fun k =>
                toI32 ((resolvedDims x x.input_shape.nbDims.toNat).getD k (f₂ k)) }
          min := x.min, max := x.max, opt := x.opt }
  rw [hr, Bool.or_assoc, Bool.or_self]

theorem resolved_wf (fill : Nat → Nat → Int) (b : SegmentedBlock) (hwf : b.WF) :
    SegmentedBlock.WF
      { b with in_shapes_ := b.in_shapes_.mapIdx fun i x => resolvedInput (fill i) x } := by
  intro y hy
  obtain ⟨i, hi, rfl⟩ := List.getElem_of_mem hy
  simp only [List.getElem_mapIdx]
  exact resolvedInput_wf _ _ (hwf _ (List.getElem_mem _))

theorem resolved_ranks (fill : Nat → Nat → Int) (b : SegmentedBlock)
    (hcap : b.RanksWithinCapacity) :
    SegmentedBlock.RanksWithinCapacity
      { b with in_shapes_ := b.in_shapes_.mapIdx fun i x => resolvedInput (fill i) x } := by
  intro y hy
  obtain ⟨i, hi, rfl⟩ := List.getElem_of_mem hy
  simp only [List.getElem_mapIdx]
  have h := hcap _ (List.getElem_mem (by simpa using hi : i < b.in_shapes_.length))
  simp only [resolvedInput]
  unfold MAX_DIMS at h ⊢
  omega

/-- C8: `construct_dynamic_shape` is idempotent on a state whose ranks are
within the capacity of the dimension array: the state `b₁` it returns is
returned again when it is applied to `b₁`; more generally, whatever the
unassigned slots hold in each call, the second call on `b₁` returns what it
returns on the original state. The first call leaves `min`, `opt`, `max` of
every input unchanged, and the rank of its working shape when that is not
negative. -/
theorem construct_dynamic_shape_idempotent (fill : Nat → Nat → Int) (b : SegmentedBlock)
    (hwf : b.WF) (hcap : b.RanksWithinCapacity) :
    ∃ b₁, construct_dynamic_shape fill b = .ok b₁ ∧
      construct_dynamic_shape fill b₁ = .ok b₁ ∧
      (∀ fill₂, construct_dynamic_shape fill₂ b₁ = construct_dynamic_shape fill₂ b) ∧
      ∀ (i : Nat) (x : Input), b.in_shapes_[i]? = some x →
        ∃ y : Input, b₁.in_shapes_[i]? = some y ∧ y.min = x.min ∧ y.opt = x.opt ∧
          y.max = x.max ∧
          (0 ≤ x.input_shape.nbDims → y.input_shape.nbDims = x.input_shape.nbDims) := by
  have hsecond : ∀ fill₂, construct_dynamic_shape fill₂
      { b with in_shapes_ := b.in_shapes_.mapIdx fun i x => resolvedInput (fill i) x }
      = construct_dynamic_shape fill₂ b := by
    intro fill₂
    rw [construct_dynamic_shape_ok fill₂ _ (resolved_wf fill b hwf) (resolved_ranks fill b hcap),
      construct_dynamic_shape_ok fill₂ b hwf hcap]
    simp only [List.mapIdx_mapIdx]
    have hfun : (fun i => (fun x => resolvedInput (fill₂ i) x) ∘ fun x => resolvedInput (fill i) x)
        = fun i x => resolvedInput (fill₂ i) x := by
      funext i x
      exact resolvedInput_idem (fill i) (fill₂ i) x
    rw [hfun]
  refine ⟨_, construct_dynamic_shape_ok fill b hwf hcap, ?_, hsecond, ?_⟩
  · rw [hsecond fill, construct_dynamic_shape_ok fill b hwf hcap]
  · intro i x hx
    refine ⟨resolvedInput (fill i) x, mapIdx_resolved_getElem? fill _ i x hx,
      rfl, rfl, rfl, ?_⟩
    intro h0
    simp only [resolvedInput]
    omega

/-- C8, on the two profiles of the specification: the resolved state is
returned unchanged by a second call. -/
theorem construct_dynamic_shape_idempotent_witness :
    (mkBlock [exDynamic, exStatic]).WF ∧ (mkBlock [exDynamic, exStatic]).RanksWithinCapacity ∧
    construct_dynamic_shape zeroFill (mkBlock [exDynamicResolved, exStatic])
      = .ok (mkBlock [exDynamicResolved, exStatic]) ∧
    ∃ b₁, construct_dynamic_shape zeroFill (mkBlock [exDynamic, exStatic]) = .ok b₁ ∧
      construct_dynamic_shape zeroFill b₁ = .ok b₁ ∧
      (∀ fill₂, construct_dynamic_shape fill₂ b₁ = construct_dynamic_shape fill₂ (mkBlock [exDynamic, exStatic])) ∧
      ∀ (i : Nat) (x : Input), (mkBlock [exDynamic, exStatic]).in_shapes_[i]? = some x →
        ∃ y : Input, b₁.in_shapes_[i]? = some y ∧ y.min = x.min ∧ y.opt = x.opt ∧
          y.max = x.max ∧
          (0 ≤ x.input_shape.nbDims → y.input_shape.nbDims = x.input_shape.nbDims) :=
  ⟨by decide, by decide, by rfl,
    construct_dynamic_shape_idempotent zeroFill (mkBlock [exDynamic, exStatic])
      (by decide) (by decide)⟩

/-! ## What the resolution depends on -/

theorem resolvedDims_congr (x₁ x₂ : Input) (n : Nat)
    (h : ∀ j < n,
      x₁.min.d[j]? = x₂.min.d[j]? ∧ x₁.opt.d[j]? = x₂.opt.d[j]? ∧ x₁.max.d[j]? = x₂.max.d[j]?) :
    resolvedDims x₁ n = resolvedDims x₂ n := by
  unfold resolvedDims
  apply List.map_congr_left
  intro j hj
  obtain ⟨h1, h2, h3⟩ := h j (List.mem_range.mp hj)
  simp only [resolvedDim, dimsAgree, List.getD_eq_getElem?_getD, h1, h2, h3]

theorem anyDynamic_congr (x₁ x₂ : Input) (n : Nat)
    (h : ∀ j < n,
      x₁.min.d[j]? = x₂.min.d[j]? ∧ x₁.opt.d[j]? = x₂.opt.d[j]? ∧ x₁.max.d[j]? = x₂.max.d[j]?) :
    anyDynamic x₁ n = anyDynamic x₂ n := by
  rw [Bool.eq_iff_iff, anyDynamic_eq_true, anyDynamic_eq_true]
  constructor
  · rintro ⟨j, hj, hd⟩
    obtain ⟨h1, h2, h3⟩ := h j hj
    refine ⟨j, hj, ?_⟩
    simpa only [dimsAgree, h1, h2, h3] using hd
  · rintro ⟨j, hj, hd⟩
    obtain ⟨h1, h2, h3⟩ := h j hj
    refine ⟨j, hj, ?_⟩
    simpa only [dimsAgree, h1, h2, h3] using hd

/-- Two profiles that agree below the rank resolve to the same working shape
and the same flag. -/
theorem resolvedInput_congr (fill : Nat → Int) (x₁ x₂ : Input) (h : x₁.AgreeBelowRank x₂) :
    (resolvedInput fill x₁).input_shape = (resolvedInput fill x₂).input_shape ∧
    (resolvedInput fill x₁).input_is_dynamic = (resolvedInput fill x₂).input_is_dynamic := by
  obtain ⟨hr, hf, hd⟩ := h
  have h1 := resolvedDims_congr x₁ x₂ _ hd
  have h2 := anyDynamic_congr x₁ x₂ _ hd
  rw [hr] at h1 h2
  simp only [resolvedInput, h1, h2, hr, hf, and_self]

/-- C10: the working shape and the flag that `construct_dynamic_shape` gives an
input depend only on the rank `r` of its working shape, its flag, and the
extents of `min`, `opt`, `max` at the indices below `r`: two states whose
inputs agree on these, whatever the declared ranks of `min`, `opt`, `max` and
their extents from index `r` on, get the same working shapes and the same
flags. -/
theorem construct_dynamic_shape_agree (fill : Nat → Nat → Int) (b₁ b₂ : SegmentedBlock)
    (hwf₁ : b₁.WF) (hwf₂ : b₂.WF) (hcap : b₁.RanksWithinCapacity)
    (hagree : List.Forall₂ Input.AgreeBelowRank b₁.in_shapes_ b₂.in_shapes_) :
    ∃ b₁' b₂', construct_dynamic_shape fill b₁ = .ok b₁' ∧
      construct_dynamic_shape fill b₂ = .ok b₂' ∧
      b₁'.in_shapes_.map (fun x => (x.input_shape, x.input_is_dynamic))
        = b₂'.in_shapes_.map (fun x => (x.input_shape, x.input_is_dynamic)) := by
  obtain ⟨hlen, hget⟩ := List.forall₂_iff_get.mp hagree
  have hcap₂ : b₂.RanksWithinCapacity := by
    intro y hy
    obtain ⟨i, hi, rfl⟩ := List.getElem_of_mem hy
    have hi₁ : i < b₁.in_shapes_.length := by omega
    have h := hget i hi₁ hi
    have hc := hcap _ (List.getElem_mem hi₁)
    simp only [List.get_eq_getElem] at h
    rw [← h.1]
    exact hc
  refine ⟨_, _, construct_dynamic_shape_ok fill b₁ hwf₁ hcap,
    construct_dynamic_shape_ok fill b₂ hwf₂ hcap₂, ?_⟩
  apply List.ext_getElem?
  intro i
  simp only [List.getElem?_map, List.getElem?_mapIdx]
  by_cases hi : i < b₁.in_shapes_.length
  · have hi₂ : i < b₂.in_shapes_.length := by omega
    have h := hget i hi hi₂
    simp only [List.get_eq_getElem] at h
    obtain ⟨hs, hf⟩ := resolvedInput_congr (fill i) _ _ h
    simp only [List.getElem?_eq_getElem hi, List.getElem?_eq_getElem hi₂, Option.map_some',
      hs, hf]
  · have hi₂ : ¬ i < b₂.in_shapes_.length := by omega
    simp only [List.getElem?_eq_none (Nat.le_of_not_lt hi),
      List.getElem?_eq_none (Nat.le_of_not_lt hi₂), Option.map_none']

/-- C10, on two profiles that differ in the declared ranks of `min` and `opt`,
in extents from index 4 on and in the extents of the old working shape. -/
theorem construct_dynamic_shape_agree_witness :
    (mkBlock [exDynamic]).WF ∧ (mkBlock [exDynamicVariant]).WF ∧
    (mkBlock [exDynamic]).RanksWithinCapacity ∧
    List.Forall₂ Input.AgreeBelowRank (mkBlock [exDynamic]).in_shapes_
      (mkBlock [exDynamicVariant]).in_shapes_ ∧
    exDynamic.min ≠ exDynamicVariant.min ∧ exDynamic.opt ≠ exDynamicVariant.opt ∧
    exDynamic.max ≠ exDynamicVariant.max ∧
    ∃ b₁' b₂', construct_dynamic_shape zeroFill (mkBlock [exDynamic]) = .ok b₁' ∧
      construct_dynamic_shape zeroFill (mkBlock [exDynamicVariant]) = .ok b₂' ∧
      b₁'.in_shapes_.map (fun x => (x.input_shape, x.input_is_dynamic))
        = b₂'.in_shapes_.map (fun x => (x.input_shape, x.input_is_dynamic)) :=
  ⟨by decide, by decide, by decide, List.Forall₂.cons (by decide) List.Forall₂.nil,
    by decide, by decide, by decide,
    construct_dynamic_shape_agree zeroFill (mkBlock [exDynamic]) (mkBlock [exDynamicVariant])
      (by decide) (by decide) (by decide) (List.Forall₂.cons (by decide) List.Forall₂.nil)⟩

end torch_tensorrt.core.partitioning
